import Mathlib

set_option maxRecDepth 100000

/-!
Verification development for the mediamtx playback server
(`internal/playback`: `on_get.go`, `cleanup.go`).

The Go source is shallowly embedded: pure functions become Lean
functions, the stateful HLS transcode-job coordinator becomes a step
relation on an explicit state type, machine integers become `Nat`/`Int`
(Go `time.Duration` is `Int` nanoseconds, Go `time.Time` is a record of
unix seconds, nanoseconds and zone offset), and fallible code returns
`Option`/`Except`.
-/

/-! ## Bytes and SHA-256 (`crypto/sha256`, used by `computeToken`) -/

/-- Byte view of a Go string (`[]byte(s)`); code points, faithful for
the ASCII data fed to `computeToken`. -/
def strBytes (s : String) : List Nat :=
  s.data.map Char.toNat

namespace SHA256

/-- The word modulus of SHA-256, 2^32. -/
def w32 : Nat := 4294967296

/-- Truncating 32-bit addition. -/
def add32 (a b : Nat) : Nat := (a + b) % w32

/-- Right rotation of a 32-bit word by `n` bits. -/
def rotr32 (x n : Nat) : Nat :=
  ((x >>> n) ||| (x <<< (32 - n))) % w32

/-- Logical right shift. -/
def shr32 (x n : Nat) : Nat := x >>> n

def bigSigma0 (x : Nat) : Nat := (rotr32 x 2) ^^^ (rotr32 x 13) ^^^ (rotr32 x 22)

def bigSigma1 (x : Nat) : Nat := (rotr32 x 6) ^^^ (rotr32 x 11) ^^^ (rotr32 x 25)

def smallSigma0 (x : Nat) : Nat := (rotr32 x 7) ^^^ (rotr32 x 18) ^^^ (shr32 x 3)

def smallSigma1 (x : Nat) : Nat := (rotr32 x 17) ^^^ (rotr32 x 19) ^^^ (shr32 x 10)

/-- Choice function; complement taken inside 32 bits. -/
def ch (x y z : Nat) : Nat := (x &&& y) ^^^ ((x ^^^ 4294967295) &&& z)

/-- Majority function. -/
def maj (x y z : Nat) : Nat := (x &&& y) ^^^ (x &&& z) ^^^ (y &&& z)

/-- The 64 SHA-256 round constants (decimal). -/
def K : List Nat :=
  [1116352408, 1899447441, 3049323471, 3921009573, 961987163,
   1508970993, 2453635748, 2870763221, 3624381080, 310598401,
   607225278, 1426881987, 1925078388, 2162078206, 2614888103,
   3248222580, 3835390401, 4022224774, 264347078, 604807628,
   770255983, 1249150122, 1555081692, 1996064986, 2554220882,
   2821834349, 2952996808, 3210313671, 3336571891, 3584528711,
   113926993, 338241895, 666307205, 773529912, 1294757372,
   1396182291, 1695183700, 1986661051, 2177026350, 2456956037,
   2730485921, 2820302411, 3259730800, 3345764771, 3516065817,
   3600352804, 4094571909, 275423344, 430227734, 506948616,
   659060556, 883997877, 958139571, 1322822218, 1537002063,
   1747873779, 1955562222, 2024104815, 2227730452, 2361852424,
   2428436474, 2756734187, 3204031479, 3329325298]
/-- The initial hash value (decimal). -/
def H0 : List Nat :=
  [1779033703, 3144134277, 1013904242, 2773480762, 1359893119,
   2600822924, 528734635, 1541459225]
/-- Big-endian byte encoding of `v` into `n` bytes. -/
def beBytes (n v : Nat) : List Nat :=
  (List.range n).map (fun i => (v >>> ((n - 1 - i) * 8)) % 256)

/-- SHA-256 padding: a `0x80` byte, zeros to 56 mod 64, then the 8-byte
big-endian bit length. -/
def padMessage (msg : List Nat) : List Nat :=
  let len := msg.length
  let padZeros := (120 - (len + 1) % 64) % 64
  msg ++ [0x80] ++ List.replicate padZeros 0 ++ beBytes 8 (len * 8)

/-- Split a (padded) message into 64-byte blocks; `fuel` bounds the
number of blocks (one unit of fuel is spent per nonempty block). -/
def chunk64Go (fuel : Nat) (l : List Nat) : List (List Nat) :=
  match fuel with
  | 0 => []
  | fuel + 1 =>
    if l = [] then [] else (l.take 64) :: chunk64Go fuel (l.drop 64)

/-- Split a (padded) message into 64-byte blocks. -/
def chunk64 (l : List Nat) : List (List Nat) :=
  chunk64Go l.length l

/-- Pack a 64-byte block into 16 big-endian 32-bit words. -/
def words16 (block : List Nat) : List Nat :=
  (List.range 16).map (fun i =>
    block.getD (4 * i) 0 * 16777216 + block.getD (4 * i + 1) 0 * 65536 +
    block.getD (4 * i + 2) 0 * 256 + block.getD (4 * i + 3) 0)

/-- One extension step of the message schedule. -/
def scheduleStep (w : List Nat) : List Nat :=
  let n := w.length
  w ++ [add32 (add32 (smallSigma1 (w.getD (n - 2) 0)) (w.getD (n - 7) 0))
         (add32 (smallSigma0 (w.getD (n - 15) 0)) (w.getD (n - 16) 0))]

/-- The full 64-word message schedule of one block. -/
def fullSchedule (w16 : List Nat) : List Nat :=
  (List.range 48).foldl (fun w _ => scheduleStep w) w16

/-- The 64-round compression of one block, starting from chaining value `hs`. -/
def compress (hs block : List Nat) : List Nat :=
  let w := fullSchedule (words16 block)
  let step := fun (st : List Nat) (i : Nat) =>
    match st with
    | [a, b, c, d, e, f, g, h] =>
      let t1 := add32 h (add32 (bigSigma1 e) (add32 (ch e f g) (add32 (K.getD i 0) (w.getD i 0))))
      let t2 := add32 (bigSigma0 a) (maj a b c)
      [add32 t1 t2, a, b, c, add32 d t1, e, f, g]
    | other => other
  let st := (List.range 64).foldl step hs
  List.zipWith add32 hs st

/-- SHA-256 digest (32 bytes) of a byte list. -/
def sha256 (msg : List Nat) : List Nat :=
  let hs := (chunk64 (padMessage msg)).foldl compress H0
  (hs.map (beBytes 4)).foldr (fun a b => a ++ b) []

/-- Lower-case hex digit. -/
def hexChar (n : Nat) : Char :=
  if n < 10 then Char.ofNat (48 + n) else Char.ofNat (87 + n)

/-- Two hex digits of one byte. -/
def byteHex (b : Nat) : List Char := [hexChar (b / 16), hexChar (b % 16)]

/-- Lower-case hex string of a byte list (`hex.EncodeToString`). -/
def hexString (bs : List Nat) : String :=
  ⟨bs.foldr (fun b acc => byteHex b ++ acc) []⟩

end SHA256

/-! ## Go `time` model

`time.Duration` is `Int` nanoseconds.  `time.Time` is a record of unix
seconds, sub-second nanoseconds and zone offset; instants compare and
subtract on the absolute (unix) value, formatting uses the offset. -/

/-- Nanoseconds per second (`time.Second`). -/
def nsPerSecond : Int := 1000000000

/-- A Go `time.Time`: unix seconds, sub-second nanoseconds, and the
zone offset (seconds east of UTC) carried by the parsed location. -/
structure GoTime where
  unixSec : Int
  nanos : Nat
  offsetSec : Int
deriving DecidableEq

/-- Go `time.Time.Sub`: difference of the absolute instants, as a
`time.Duration` (nanoseconds). -/
def timeSub (a b : GoTime) : Int :=
  (a.unixSec - b.unixSec) * nsPerSecond + ((a.nanos : Int) - (b.nanos : Int))

/-- Go `time.Time.Add`: advance an instant by a duration. -/
def timeAdd (t : GoTime) (d : Int) : GoTime :=
  let total := t.unixSec * nsPerSecond + (t.nanos : Int) + d
  ⟨total.fdiv nsPerSecond, (total.emod nsPerSecond).toNat, t.offsetSec⟩

/-- Civil date of a day count since 1970-01-01 (proleptic Gregorian). -/
def daysToCivil (z : Int) : Int × Nat × Nat :=
  let z' := z + 719468
  let era := z'.fdiv 146097
  let doe := (z' - era * 146097).toNat
  let yoe := (doe - doe / 1460 + doe / 36524 - doe / 146096) / 365
  let doy := doe - (365 * yoe + yoe / 4 - yoe / 100)
  let mp := (5 * doy + 2) / 153
  let d := doy - (153 * mp + 2) / 5 + 1
  let m := if mp < 10 then mp + 3 else mp - 9
  let y : Int := (yoe : Int) + era * 400 + (if m ≤ 2 then 1 else 0)
  (y, m, d)

/-- Day count since 1970-01-01 of a civil date. -/
def civilToDays (y : Int) (m d : Nat) : Int :=
  let y' := if m ≤ 2 then y - 1 else y
  let era := y'.fdiv 400
  let yoe := (y' - era * 400).toNat
  let doy := (153 * (if m > 2 then m - 3 else m + 9) + 2) / 5 + d - 1
  let doe := yoe * 365 + yoe / 4 - yoe / 100 + doy
  era * 146097 + (doe : Int) - 719468

/-- Zero-pad a decimal rendering on the left to width `w`. -/
def padZ (w n : Nat) : String :=
  let s := toString n
  ⟨List.replicate (w - s.length) '0'⟩ ++ s

/-- Go `time.Time.Format(time.RFC3339)`: second precision (the layout has
no fractional digits), `Z` exactly when the offset is zero. -/
def formatRFC3339 (t : GoTime) : String :=
  let localSec := t.unixSec + t.offsetSec
  let days := localSec.fdiv 86400
  let secOfDay := (localSec.emod 86400).toNat
  let ymd := daysToCivil days
  let zone :=
    if t.offsetSec = 0 then "Z"
    else
      let a := t.offsetSec.natAbs
      (if t.offsetSec < 0 then "-" else "+") ++ padZ 2 (a / 3600) ++ ":" ++ padZ 2 (a % 3600 / 60)
  padZ 4 ymd.1.toNat ++ "-" ++ padZ 2 ymd.2.1 ++ "-" ++ padZ 2 ymd.2.2 ++ "T" ++
    padZ 2 (secOfDay / 3600) ++ ":" ++ padZ 2 (secOfDay % 3600 / 60) ++ ":" ++
    padZ 2 (secOfDay % 60) ++ zone

/-- Value of a decimal digit character, if it is one. -/
def digitVal (c : Char) : Option Nat :=
  if c.isDigit then some (c.toNat - 48) else none

/-- Value of a digit list (most significant first). -/
def digitsVal (l : List Char) : Nat :=
  l.foldl (fun a c => a * 10 + (c.toNat - 48)) 0

/-- Days in a month of a (proleptic Gregorian) year. -/
def daysInMonth (y : Int) (m : Nat) : Nat :=
  if m = 2 then
    if y.emod 4 = 0 ∧ (y.emod 100 ≠ 0 ∨ y.emod 400 = 0) then 29 else 28
  else if m = 4 ∨ m = 6 ∨ m = 9 ∨ m = 11 then 30
  else 31

/-- Zone suffix of an RFC 3339 string: `Z` or `±hh:mm`. -/
def parseZone (l : List Char) : Option Int :=
  match l with
  | ['Z'] => some 0
  | [sg, h1, h2, ':', m1, m2] => do
    let hh := (← digitVal h1) * 10 + (← digitVal h2)
    let mm := (← digitVal m1) * 10 + (← digitVal m2)
    if hh ≤ 23 ∧ mm ≤ 59 then
      let off : Int := (hh : Int) * 3600 + (mm : Int) * 60
      match sg with
      | '+' => some off
      | '-' => some (-off)
      | _ => none
    else none
  | _ => none

/-- Optional fractional seconds then the zone suffix: nanoseconds and
offset. At most nine fractional digits are accepted. -/
def parseFracZone (l : List Char) : Option (Nat × Int) :=
  match l with
  | '.' :: rest =>
    let p := rest.span Char.isDigit
    if p.1 = [] ∨ 9 < p.1.length then none
    else do
      let off ← parseZone p.2
      some (digitsVal p.1 * 10 ^ (9 - p.1.length), off)
  | _ => do
    let off ← parseZone l
    some (0, off)

/-- Consume one expected literal character. -/
def expectChar (c : Char) : List Char → Option (List Char)
  | x :: r => if x = c then some r else none
  | [] => none

/-- Consume two decimal digits. -/
def parse2Digits : List Char → Option (Nat × List Char)
  | a :: b :: r => do
    let x ← digitVal a
    let y ← digitVal b
    some (x * 10 + y, r)
  | _ => none

/-- Consume four decimal digits. -/
def parse4Digits (l : List Char) : Option (Nat × List Char) := do
  let p ← parse2Digits l
  let q ← parse2Digits p.2
  some (p.1 * 100 + q.1, q.2)

/-- The `YYYY-MM-DD` head of an RFC 3339 string. -/
def parseDatePart (l : List Char) : Option (Nat × Nat × Nat × List Char) := do
  let py ← parse4Digits l
  let r1 ← expectChar '-' py.2
  let pmo ← parse2Digits r1
  let r2 ← expectChar '-' pmo.2
  let pdy ← parse2Digits r2
  some (py.1, pmo.1, pdy.1, pdy.2)

/-- The `hh:mm:ss` clock part of an RFC 3339 string. -/
def parseClockPart (l : List Char) : Option (Nat × Nat × Nat × List Char) := do
  let phh ← parse2Digits l
  let r4 ← expectChar ':' phh.2
  let pmi ← parse2Digits r4
  let r5 ← expectChar ':' pmi.2
  let pss ← parse2Digits r5
  some (phh.1, pmi.1, pss.1, pss.2)

/-- Go `time.Parse(time.RFC3339, s)`: fixed-width date and time fields,
optional fractional seconds, `Z` or a numeric offset; field ranges are
validated. -/
def parseRFC3339 (s : String) : Option GoTime := do
  let pd ← parseDatePart s.data
  let r ← expectChar 'T' pd.2.2.2
  let pc ← parseClockPart r
  let fz ← parseFracZone pc.2.2.2
  let y := pd.1
  let mo := pd.2.1
  let dy := pd.2.2.1
  if 1 ≤ mo ∧ mo ≤ 12 ∧ 1 ≤ dy ∧ dy ≤ daysInMonth (y : Int) mo ∧
      pc.1 ≤ 23 ∧ pc.2.1 ≤ 59 ∧ pc.2.2.1 ≤ 59 then
    some ⟨civilToDays (y : Int) mo dy * 86400 + (pc.1 : Int) * 3600 +
            (pc.2.1 : Int) * 60 + (pc.2.2.1 : Int) - fz.2, fz.1, fz.2⟩
  else none

/-! ## Go `time.Duration.String` and `time.ParseDuration` -/

/-- Drop trailing zeros of a fraction rendering. -/
def trimRightZeros (s : String) : String :=
  ⟨(s.data.reverse.dropWhile (fun c => c = '0')).reverse⟩

/-- Render `<int>.<frac>` with `digits`-wide fraction, trailing zeros trimmed,
the dot omitted for a zero fraction (Go's `fmtFrac`/`fmtInt`). -/
def intFrac (i f digits : Nat) : String :=
  toString i ++ (if f = 0 then "" else "." ++ trimRightZeros (padZ digits f))

/-- Go `time.Duration.String`. -/
def durationString (d : Int) : String :=
  if d = 0 then "0s"
  else
    let u := d.natAbs
    let core :=
      if u < 1000 then toString u ++ "ns"
      else if u < 1000000 then intFrac (u / 1000) (u % 1000) 3 ++ "µs"
      else if u < 1000000000 then intFrac (u / 1000000) (u % 1000000) 6 ++ "ms"
      else
        let secs := u / 1000000000
        let sPart := intFrac (secs % 60) (u % 1000000000) 9 ++ "s"
        let mins := secs / 60
        if mins = 0 then sPart
        else
          let mPart := toString (mins % 60) ++ "m" ++ sPart
          let hrs := mins / 60
          if hrs = 0 then mPart else toString hrs ++ "h" ++ mPart
    if d < 0 then "-" ++ core else core

/-- Go `strconv.ParseFloat` on plain decimal inputs
(`[+-]?digits[.digits]?[eE[+-]digits]?`), as an exact scaled decimal
`mantissa * 10 ^ exponent`; the hex-float, `Inf` and `NaN` forms are
not modelled. -/
def parseFloatDec (s : String) : Option (Int × Int) :=
  let l := s.data
  let sp : Bool × List Char :=
    match l with
    | '+' :: r => (false, r)
    | '-' :: r => (true, r)
    | r => (false, r)
  let ip := sp.2.span Char.isDigit
  let fp : List Char × List Char :=
    match ip.2 with
    | '.' :: r => r.span Char.isDigit
    | r => ([], r)
  if ip.1 = [] ∧ fp.1 = [] then none
  else
    let mantNat := digitsVal ip.1 * 10 ^ fp.1.length + digitsVal fp.1
    let mant : Int := if sp.1 then -(mantNat : Int) else (mantNat : Int)
    let rest := match ip.2 with | '.' :: _ => fp.2 | r => r
    match rest with
    | [] => some (mant, -(fp.1.length : Int))
    | e :: er =>
      if e = 'e' ∨ e = 'E' then
        let esp : Bool × List Char :=
          match er with
          | '+' :: r => (false, r)
          | '-' :: r => (true, r)
          | r => (false, r)
        let ed := esp.2.span Char.isDigit
        if ed.1 = [] ∨ ed.2 ≠ [] then none
        else
          let ex : Int := if esp.1 then -(digitsVal ed.1 : Int) else (digitsVal ed.1 : Int)
          some (mant, ex - (fp.1.length : Int))
      else none

/-- Division of an `Int` by a positive `Nat`, truncating toward zero
(the `float64` → `time.Duration` conversion). -/
def intTDiv (a : Int) (b : Nat) : Int :=
  if a < 0 then -((a.natAbs / b : Nat) : Int) else ((a.natAbs / b : Nat) : Int)

/-- Go `time.Duration(secs * float64(time.Second))` on the exact scaled
decimal `mant * 10 ^ exp`: scale to nanoseconds and truncate toward
zero (exact whenever the float computation is). -/
def scaledToNanos (mant exp : Int) : Int :=
  if 0 ≤ exp then mant * 1000000000 * (10 : Int) ^ exp.toNat
  else intTDiv (mant * 1000000000) (10 ^ (-exp).toNat)

/-- Unit suffix lookup of `time.ParseDuration`, longest match first. -/
def durUnit (l : List Char) : Option (Int × List Char) :=
  match l with
  | 'n' :: 's' :: r => some (1, r)
  | 'u' :: 's' :: r => some (1000, r)
  | 'µ' :: 's' :: r => some (1000, r)
  | 'μ' :: 's' :: r => some (1000, r)
  | 'm' :: 's' :: r => some (1000000, r)
  | 's' :: r => some (1000000000, r)
  | 'm' :: r => some (60000000000, r)
  | 'h' :: r => some (3600000000000, r)
  | _ => none

/-- One-or-more `number unit` components of `time.ParseDuration`;
`fuel` bounds the iteration count (the input shrinks every round). -/
def parseDurComponents (fuel : Nat) (l : List Char) : Option Int :=
  match fuel with
  | 0 => none
  | fuel + 1 =>
    match l with
    | [] => some 0
    | _ =>
      let ip := l.span Char.isDigit
      let fp : List Char × List Char :=
        match ip.2 with
        | '.' :: r => r.span Char.isDigit
        | r => ([], r)
      if ip.1 = [] ∧ fp.1 = [] then none
      else do
        let u ← durUnit fp.2
        let whole : Int := (digitsVal ip.1 : Int) * u.1
        let frac : Int := ((digitsVal fp.1 : Int) * u.1) / ((10 : Int) ^ fp.1.length)
        let rest ← parseDurComponents fuel u.2
        some (whole + frac + rest)

/-- Go `time.ParseDuration`: optional sign, the special case `0`, else a
nonempty sequence of `number unit` components. -/
def parseGoDuration (s : String) : Except String Int :=
  let l := s.data
  let sp : Bool × List Char :=
    match l with
    | '+' :: r => (false, r)
    | '-' :: r => (true, r)
    | r => (false, r)
  if sp.2 = ['0'] then .ok 0
  else if sp.2 = [] then .error "invalid duration"
  else
    match parseDurComponents (sp.2.length + 1) sp.2 with
    | some v => .ok (if sp.1 then -v else v)
    | none => .error "invalid duration"

/-! ## `parseDuration` (`on_get.go` lines 40-48) -/

/-- The handler helper `parseDuration`: plain seconds via `strconv.ParseFloat` first, the
deprecated Go duration format as fallback
(`time.Duration(secs * float64(time.Second))` is exact on the decimal
inputs exercised here). -/
def parseDuration (raw : String) : Except String Int :=
  match parseFloatDec raw with
  | some secs => .ok (scaledToNanos secs.1 secs.2)
  | none => parseGoDuration raw

/-! ## Go `path/filepath` (`Clean`, `Join`) on slash-separated paths -/

/-- One element of `Clean`'s documented rewriting: drop empty and `.`
elements; `..` removes the preceding element when one exists, is kept
on a non-rooted path with nothing left to remove, and is dropped at the
root of a rooted path.  `acc` is the processed prefix, reversed. -/
def cleanPush (rooted : Bool) (acc : List String) (elem : String) : List String :=
  if elem = "" ∨ elem = "." then acc
  else if elem = ".." then
    match acc with
    | [] => if rooted then [] else [".."]
    | top :: rest => if top = ".." then elem :: acc else rest
  else elem :: acc

/-- Split a character list on a separator character. -/
def splitOn (sep : Char) : List Char → List Char → List String
  | [], cur => [⟨cur.reverse⟩]
  | c :: r, cur =>
    if c = sep then (⟨cur.reverse⟩ : String) :: splitOn sep r []
    else splitOn sep r (c :: cur)

/-- Join strings with a separator. -/
def joinWith (sep : String) : List String → String
  | [] => ""
  | [x] => x
  | x :: y :: xs => x ++ sep ++ joinWith sep (y :: xs)

/-- Whether a path begins with the separator. -/
def rootedPath (l : List Char) : Bool :=
  match l with
  | c :: _ => c = '/'
  | [] => false

/-- Go `filepath.Clean` (Unix separator): the standard lexical
simplification described in its documentation. -/
def goClean (path : String) : String :=
  if path = "" then "."
  else
    let rooted := rootedPath path.data
    let parts := (splitOn '/' path.data []).foldl (cleanPush rooted) []
    let body := joinWith "/" parts.reverse
    if rooted then "/" ++ body
    else if body = "" then "." else body

/-- Go `filepath.Join`: drop empty elements, join on `/`, `Clean` the
result; all-empty input yields the empty string. -/
def goJoin (elems : List String) : String :=
  let ne := elems.filter (fun e => e ≠ "")
  if ne = [] then "" else goClean (joinWith "/" ne)

/-- Whether `p` lies within directory `dir` (is `dir` itself or below it). -/
def withinDir (dir p : String) : Bool :=
  p == dir || (dir ++ "/").data.isPrefixOf p.data

/-! ## `computeToken` and the HLS artifact directory
(`on_get.go` lines 50-57 and 215-224) -/

/-- The byte stream successively written into the SHA-256 state by
`computeToken`: client id, path name, the RFC 3339 rendering of
`start`, and `duration.String()`, concatenated. -/
def encodeTokenInput (clientID pathName : String) (start : GoTime) (duration : Int) :
    List Nat :=
  strBytes clientID ++ strBytes pathName ++ strBytes (formatRFC3339 start) ++
    strBytes (durationString duration)

/-- The source function `computeToken`: hex-encoded SHA-256 of the concatenated encoding of
`(clientID, pathName, start, duration)`. -/
def computeToken (clientID pathName : String) (start : GoTime) (duration : Int) : String :=
  SHA256.hexString (SHA256.sha256 (encodeTokenInput clientID pathName start duration))

/-- Path `filepath.Join(".", "mediamtx_hls", token)`: the per-token HLS
output directory. -/
def hlsDirOf (token : String) : String :=
  goJoin [".", "mediamtx_hls", token]

/-- The directory `handleHLS` works in for a given request
(`on_get.go` lines 216-218): token from `(clientIP, pathName, start,
duration)`, then `./mediamtx_hls/<token>`. -/
def handleHLSDirFor (clientIP pathName : String) (start : GoTime) (duration : Int) :
    String :=
  hlsDirOf (computeToken clientIP pathName start duration)

/-- The path handed to `ctx.File` by the `file` query-parameter branch
of `handleHLS` (`on_get.go` lines 221-224):
`filepath.Join(hlsDir, segFile)`. -/
def handleHLSServedFile (token segFile : String) : String :=
  goJoin [hlsDirOf token, segFile]

/-! ## Direct-format error handling (`on_get.go` lines 26-38, 188-209) -/

/-- The reaction of `onGet` to an error from `seekAndMux`, classified
by its cause. -/
inductive SeekMuxErrClass
  /-- The error wraps a `*net.OpError` (client aborted the download). -/
  | netOpError
  /-- The error is `recordstore.ErrNoSegmentsFound`. -/
  | noSegmentsFound
  /-- Any other error. -/
  | otherError
deriving DecidableEq

/-- What the handler does about a `seekAndMux` error. -/
inductive MuxFailureAction
  /-- Return with no response and no log line. -/
  | silentReturn
  /-- Call `writeError`: log and send a status-plus-text response. -/
  | respondError (status : Nat)
  /-- Log only; the committed response is left alone. -/
  | logOnly
deriving DecidableEq

/-- Effect of `writerWrapper.Write`: the first write marks the response as
started (and sets the headers); every write leaves `written = true`. -/
def writerWrapperWrite (written : Bool) : Bool :=
  if written then true else true

/-- The `onGet` error branch after `seekAndMux` for the direct formats
(`on_get.go` lines 188-209): a `net.OpError` returns silently; with
nothing written yet, `ErrNoSegmentsFound` yields 404 and anything else
400; after the first body byte the error is only logged. -/
def onGetMuxFailure (written : Bool) (e : SeekMuxErrClass) : MuxFailureAction :=
  if e = .netOpError then .silentReturn
  else if written = false then
    if e = .noSegmentsFound then .respondError 404 else .respondError 400
  else .logOnly

/-! ## `duration` validation in `onGet` (`on_get.go` lines 143-147) -/

/-- Result of the `duration` query-parameter check. -/
inductive DurationValidation
  /-- Call `writeError(http.StatusBadRequest, "invalid duration: ...")`. -/
  | rejected (status : Nat)
  /-- The parsed duration is accepted and the handler proceeds. -/
  | accepted (d : Int)
deriving DecidableEq

/-- The `duration` validation step of `onGet`: parse failure is a 400,
any parsed value (of either sign) is accepted. -/
def onGetValidateDuration (raw : String) : DurationValidation :=
  match parseDuration raw with
  | .ok d => .accepted d
  | .error _ => .rejected 400

/-! ## `deleteHLSDir` (`cleanup.go` lines 58-99) -/

/-- Response of the `DELETE /hls` handler. -/
inductive DeleteHLSResponse
  | badRequest
  | notFound
  | serverError
  | okDeleted
deriving DecidableEq

/-- Outcome of `deleteHLSDir`: the HTTP response and the directory on
which `os.RemoveAll` was invoked, if any. -/
structure DeleteHLSResult where
  response : DeleteHLSResponse
  removedDir : Option String
deriving DecidableEq

/-- The source handler `deleteHLSDir`: requires `path`, `start`, `duration`; parses them
as `onGet` does; recomputes the token and its directory; 404 when the
directory is absent (filesystem untouched); otherwise removes it
(`dirExists` abstracts `os.Stat`, `removeOk` the `os.RemoveAll`
outcome). -/
def deleteHLSDir (clientIP pathName startStr durationStr : String)
    (dirExists removeOk : Bool) : DeleteHLSResult :=
  if pathName = "" ∨ startStr = "" ∨ durationStr = "" then ⟨.badRequest, none⟩
  else
    match parseRFC3339 startStr with
    | none => ⟨.badRequest, none⟩
    | some start =>
      match parseDuration durationStr with
      | .error _ => ⟨.badRequest, none⟩
      | .ok duration =>
        let hlsDir := hlsDirOf (computeToken clientIP pathName start duration)
        if dirExists = false then ⟨.notFound, none⟩
        else if removeOk then ⟨.okDeleted, some hlsDir⟩
        else ⟨.serverError, some hlsDir⟩

/-! ## The cleanup sweeps (`cleanup.go` lines 14-56) -/

/-- One directory entry as seen by `os.ReadDir` plus its `Info()`
outcome: name, directory flag, modification time, and whether the stat
succeeded. -/
structure FsEntry where
  name : String
  isDir : Bool
  modTimeNs : Int
  statOk : Bool
deriving DecidableEq

/-- Go `time.Hour` in nanoseconds. -/
def hourNs : Int := 3600000000000

/-- The root `./mediamtx_hls` swept by the cleanup service
(`cleanup.go` line 46). -/
def hlsRoot : String := goJoin [".", "mediamtx_hls"]

/-- The sweep `cleanupDirectories(root, deleteAll)` at time `nowNs`: the paths
passed to `os.RemoveAll`.  Non-directories are skipped, entries whose
stat fails are skipped with a warning, and a directory is removed when
`deleteAll` is set or its modification time is more than one hour in
the past. -/
def cleanupDirectories (root : String) (entries : List FsEntry) (nowNs : Int)
    (deleteAll : Bool) : List String :=
  match entries with
  | [] => []
  | e :: rest =>
    if e.isDir then
      if e.statOk = false then cleanupDirectories root rest nowNs deleteAll
      else if deleteAll ∨ nowNs - e.modTimeNs > hourNs then
        goJoin [root, e.name] :: cleanupDirectories root rest nowNs deleteAll
      else cleanupDirectories root rest nowNs deleteAll
    else cleanupDirectories root rest nowNs deleteAll

/-- The initial sweep run at server startup
(`cleanup.go` line 49, started from `Initialize`): `deleteAll = true`. -/
def initialCleanupPass (entries : List FsEntry) (nowNs : Int) : List String :=
  cleanupDirectories hlsRoot entries nowNs true

/-- One hourly background sweep (`cleanup.go` line 54):
`deleteAll = false`. -/
def periodicCleanupPass (entries : List FsEntry) (nowNs : Int) : List String :=
  cleanupDirectories hlsRoot entries nowNs false

/-! ## `seekAndMux` (`on_get.go` lines 59-129)

The orchestrator's control flow is embedded over abstracted segment
I/O: each recorded segment carries its start time, the outcomes of
`os.Open` / `segmentFMP4ReadHeader` / `segmentFMP4MuxParts`, and its
part times.  The muxer side effects are collected in a trace. -/

/-- The `conf.RecordFormat` enum, as used by `seekAndMux`. -/
inductive RecordFormat
  | fmp4
  | mpegts
deriving DecidableEq

/-- A container header's track descriptor set
(`fmp4.Init` / `firstInit.Tracks`), abstracted to track ids. -/
structure TrackSet where
  tracks : List Nat
deriving DecidableEq

/-- One recorded segment with its abstracted I/O outcomes:
`recordstore.Segment.Start` (nanoseconds on the recording timeline),
whether `os.Open` succeeds, the header `segmentFMP4ReadHeader` returns
(`none` = malformed), the part times stored in the file (relative to
the segment's start), and whether `segmentFMP4MuxParts` itself
succeeds. -/
structure SegSrc where
  segStart : Int
  openOk : Bool
  header : Option TrackSet
  partTimes : List Int
  muxOk : Bool
deriving DecidableEq

/-- Errors of the embedded `seekAndMux`. -/
inductive MuxErr
  | unsupportedFormat
  | openFailed
  | headerFailed
  | muxFailed
  | flushFailed
deriving DecidableEq

/-- Trace of muxer and file activity during `seekAndMux`: the header
passed to `writeInit`, one entry per `segmentFMP4MuxParts` call
(the `segmentStartOffset` argument and the local part positions read),
the number of `os.Open` calls, and whether `flush` was called. -/
structure MuxTrace where
  wroteInit : Option TrackSet
  muxCalls : List (Int × List Int)
  opened : Nat
  flushed : Bool
deriving DecidableEq

/-- The empty trace. -/
def emptyTrace : MuxTrace := ⟨none, [], 0, false⟩

/-- Modelled from the spec: `segmentFMP4MuxParts` lives in
`segment_fmp4.go`, which is not part of the sources; per §4.3-§4.4 it
muxes the parts of one segment shifted by `segmentStartOffset`,
clamped to the segment's beginning (reading starts at local position
`max 0 (-offset)`, never before position zero) and bounded by the
requested `duration`; it returns the produced duration and (here) the
local positions read. -/
def segmentFMP4MuxParts (partTimes : List Int) (segmentStartOffset duration : Int) :
    Int × List Int :=
  let readFrom : Int := max 0 (-segmentStartOffset)
  let written := partTimes.filter (fun t => readFrom ≤ t ∧ t + segmentStartOffset < duration)
  ((written.map (fun t => t + segmentStartOffset)).foldl max 0, written)

/-- Tolerance for the start-time drift between adjacent segments; a
policy constant (spec §4.2, §9). -/
def concatTolerance : Nat := 1000000000

/-- Modelled from the spec: `segmentFMP4CanBeConcatenated` lives in
`segment_fmp4.go`, which is not part of the sources; per §4.2 it holds
exactly when the track descriptor sets match and the candidate's start
is within tolerance of the expected end. -/
def segmentFMP4CanBeConcatenated (firstInit : TrackSet) (segmentEnd : Int)
    (init : TrackSet) (segStart : Int) : Bool :=
  firstInit == init && (segStart - segmentEnd).natAbs ≤ concatTolerance

/-- The `for _, seg := range segments[1:]` loop of `seekAndMux`
(`on_get.go` lines 92-118): open, read header, stop without error on a
failed continuity check, else mux at offset `seg.Start - start` and
advance `segmentEnd`. -/
def seekAndMuxLoop (firstInit : TrackSet) (start duration : Int) :
    List SegSrc → Int → MuxTrace → Except MuxErr Unit × MuxTrace
  | [], _, tr => (.ok (), tr)
  | seg :: rest, segmentEnd, tr =>
    if seg.openOk = false then (.error .openFailed, { tr with opened := tr.opened + 1 })
    else
      match seg.header with
      | none => (.error .headerFailed, { tr with opened := tr.opened + 1 })
      | some init =>
        if segmentFMP4CanBeConcatenated firstInit segmentEnd init seg.segStart = false then
          (.ok (), { tr with opened := tr.opened + 1 })
        else
          let off := seg.segStart - start
          if seg.muxOk = false then (.error .muxFailed, { tr with opened := tr.opened + 1 })
          else
            let pr := segmentFMP4MuxParts seg.partTimes off duration
            seekAndMuxLoop firstInit start duration rest (start + pr.1)
              { tr with opened := tr.opened + 1, muxCalls := tr.muxCalls ++ [(off, pr.2)] }

/-- The orchestrator `seekAndMux` (`on_get.go` lines 59-129) over segments
`seg0 :: rest` (the handler only calls it with a nonempty list): only
the fMP4 family is supported; the first segment's header goes to
`writeInit`; the first mux call receives
`segmentStartOffset = segments[0].Start - start` (line 83); then the
remaining segments are consumed until a continuity break, and the
muxer is flushed. -/
def seekAndMux (recordFormat : RecordFormat) (seg0 : SegSrc) (rest : List SegSrc)
    (start duration : Int) (flushOk : Bool) : Except MuxErr Unit × MuxTrace :=
  match recordFormat with
  | .mpegts => (.error .unsupportedFormat, emptyTrace)
  | .fmp4 =>
    if seg0.openOk = false then (.error .openFailed, { emptyTrace with opened := 1 })
    else
      match seg0.header with
      | none => (.error .headerFailed, { emptyTrace with opened := 1 })
      | some firstInit =>
        let tr0 : MuxTrace := ⟨some firstInit, [], 1, false⟩
        let off0 := seg0.segStart - start
        if seg0.muxOk = false then (.error .muxFailed, tr0)
        else
          let pr := segmentFMP4MuxParts seg0.partTimes off0 duration
          let tr1 : MuxTrace := { tr0 with muxCalls := [(off0, pr.2)] }
          match seekAndMuxLoop firstInit start duration rest (start + pr.1) tr1 with
          | (.error e, tr) => (.error e, tr)
          | (.ok _, tr) =>
            if flushOk then (.ok (), { tr with flushed := true })
            else (.error .flushFailed, { tr with flushed := true })

/-! ## The HLS transcode-job coordinator (`handleHLS`,
`on_get.go` lines 215-376, and the `Server` registry)

One `(clientIP, token)` pair is modelled, with an unbounded supply of
identical requests (threads).  Every mutation of
`s.activeHLSTokens[clientIP]` happens under `activeHLSLock`, so the
system is an interleaving of atomic steps.  Registry entries are
numbered by generation (`nextGen` counts the entries ever created for
the token); `ffmpeg` writes `index.m3u8` before exiting successfully,
and the manifest generated for fixed request parameters and recording
is a fixed string. -/

/-- The manifest `ffmpeg` produces for this (fixed) request and
recording. -/
def generatedManifest : String := "#EXTM3U generated playlist"

/-- The response one request ends with. -/
inductive HLSOutcome
  /-- Response `servePlaylist` on the playlist bytes read from disk. -/
  | manifest (content : String)
  /-- 500 `ffmpeg processing failed` (owner, `on_get.go` line 366) or
  500 `ffmpeg start failed` (owner, line 337). -/
  | ffmpegFailed
  /-- 500 `failed to read playlist` (lines 246 and 372). -/
  | readPlaylistFailed
  /-- 500 from directory / trimmed-file setup or `seekAndMux`
  (lines 263-310). -/
  | setupFailed
  /-- The waiter's request context fired first (line 251). -/
  | canceled
deriving DecidableEq

/-- Where one request (thread) stands. -/
inductive HPhase
  /-- Not yet at the registry check (line 228). -/
  | reqStart
  /-- Created entry `g` and owns it (lines 254-261), setup not done. -/
  | owner (g : Nat)
  /-- Call `cmd.Start()` succeeded; the subprocess of entry `g` is running
  (between lines 336 and 346). -/
  | ownerSpawned (g : Nat)
  /-- Call `cmd.Wait()` returned (`ok` = nil error); registry cleanup and
  `close(doneChan)` done (lines 352-362), response still pending. -/
  | ownerExited (g : Nat) (ok : Bool)
  /-- Found entry `g` and blocks on its `doneChan` (lines 235-253). -/
  | waiter (g : Nat)
  /-- Observed `doneChan` closed, about to read the playlist
  (lines 238-249). -/
  | waiterWoken (g : Nat)
  /-- The handler returned with this outcome. -/
  | responded (o : HLSOutcome)
deriving DecidableEq

/-- Coordinator state for one `(clientIP, token)` pair. -/
structure HState where
  /-- Registry `s.activeHLSTokens[clientIP][token]`: the live entry's
  generation, if present. -/
  entry : Option Nat
  /-- Number of entries ever created for the token. -/
  nextGen : Nat
  /-- Generations whose `doneChan` has been closed. -/
  closedGens : List Nat
  /-- Number of subprocess exits (`cmd.Wait` returns). -/
  exited : Nat
  /-- Number of successful `cmd.Start()` calls (subprocess
  executions). -/
  spawns : Nat
  /-- Content of `<hlsDir>/index.m3u8`, if the file exists. -/
  playlist : Option String
  /-- Phase of each request thread. -/
  threads : Nat → HPhase

/-- The initial state: empty registry, no artifact, all requests
pending. -/
def hInit : HState :=
  ⟨none, 0, [], 0, 0, none, fun _ => .reqStart⟩

/-- Outcome of `os.ReadFile(hlsPlaylist)` followed by `servePlaylist` /
`writeError` (lines 244-249 and 370-375). -/
def readPlaylistOutcome (playlist : Option String) : HLSOutcome :=
  match playlist with
  | some c => .manifest c
  | none => .readPlaylistFailed

/-- One atomic step of the coordinator. -/
inductive HStep : HState → HState → Prop
  /-- Lines 228-233, 254-261: under the lock, no entry for the token
  exists, so the request creates one and becomes its owner. -/
  | arriveNew (s : HState) (i : Nat)
      (hth : s.threads i = .reqStart) (hentry : s.entry = none) :
      HStep s { s with entry := some s.nextGen, nextGen := s.nextGen + 1,
                       threads := Function.update s.threads i (.owner s.nextGen) }
  /-- Lines 234-236: under the lock, an entry exists; the request keeps
  its `doneChan` and will wait on it. -/
  | arriveJoin (s : HState) (i g : Nat)
      (hth : s.threads i = .reqStart) (hentry : s.entry = some g) :
      HStep s { s with threads := Function.update s.threads i (.waiter g) }
  /-- Lines 263-310: directory, list/trimmed-file creation or
  `seekAndMux` fails; the owner responds 500.  The registry entry stays
  and `doneChan` is never closed. -/
  | setupFail (s : HState) (i g : Nat) (hth : s.threads i = .owner g) :
      HStep s { s with threads := Function.update s.threads i (.responded .setupFailed) }
  /-- Lines 336-339: `cmd.Start()` fails; the owner responds 500.  As
  with `setupFail`, no registry cleanup happens. -/
  | startFail (s : HState) (i g : Nat) (hth : s.threads i = .owner g) :
      HStep s { s with threads := Function.update s.threads i (.responded .ffmpegFailed) }
  /-- Lines 329-344: setup succeeded and `cmd.Start()` returned nil;
  the subprocess is now running. -/
  | spawn (s : HState) (i g : Nat) (hth : s.threads i = .owner g) :
      HStep s { s with spawns := s.spawns + 1,
                       threads := Function.update s.threads i (.ownerSpawned g) }
  /-- Lines 346-362, successful exit: `ffmpeg` wrote the playlist; the
  goroutine deletes the registry entry and closes `doneChan`. -/
  | exitOk (s : HState) (i g : Nat) (hth : s.threads i = .ownerSpawned g) :
      HStep s { s with entry := none, closedGens := g :: s.closedGens,
                       exited := s.exited + 1, playlist := some generatedManifest,
                       threads := Function.update s.threads i (.ownerExited g true) }
  /-- Lines 346-362, failed exit (nonzero status or the two-minute
  deadline): no playlist is written; registry cleanup and
  `close(doneChan)` happen all the same. -/
  | exitFail (s : HState) (i g : Nat) (hth : s.threads i = .ownerSpawned g) :
      HStep s { s with entry := none, closedGens := g :: s.closedGens,
                       exited := s.exited + 1,
                       threads := Function.update s.threads i (.ownerExited g false) }
  /-- Lines 365-375, owner after a clean exit: read the playlist back
  and serve it. -/
  | ownerServe (s : HState) (i g : Nat) (hth : s.threads i = .ownerExited g true) :
      HStep s { s with threads :=
        Function.update s.threads i (.responded (readPlaylistOutcome s.playlist)) }
  /-- Lines 365-368, owner after a failed exit: respond 500 `ffmpeg
  processing failed`. -/
  | ownerFail (s : HState) (i g : Nat) (hth : s.threads i = .ownerExited g false) :
      HStep s { s with threads := Function.update s.threads i (.responded .ffmpegFailed) }
  /-- Line 238: the waiter's `doneChan` case fires once generation `g`
  closed it. -/
  | waiterWake (s : HState) (i g : Nat)
      (hth : s.threads i = .waiter g) (hcl : g ∈ s.closedGens) :
      HStep s { s with threads := Function.update s.threads i (.waiterWoken g) }
  /-- Lines 244-250: the woken waiter reads the playlist and serves it,
  or responds 500 when the read fails. -/
  | waiterServe (s : HState) (i g : Nat) (hth : s.threads i = .waiterWoken g) :
      HStep s { s with threads :=
        Function.update s.threads i (.responded (readPlaylistOutcome s.playlist)) }
  /-- Lines 251-252: the waiter's own request context fires first; it
  detaches with no response. -/
  | waiterCancel (s : HState) (i g : Nat) (hth : s.threads i = .waiter g) :
      HStep s { s with threads := Function.update s.threads i (.responded .canceled) }

/-- Reachability from the initial state. -/
def HReach (s : HState) : Prop :=
  Relation.ReflTransGen HStep hInit s

/-- A phase that holds the live ownership of entry `g` (entry created,
subprocess not yet exited). -/
def livePhase (p : HPhase) (g : Nat) : Prop :=
  p = .owner g ∨ p = .ownerSpawned g

/-- Thread `i` holds the live ownership of entry `g`. -/
def liveOwner (s : HState) (i g : Nat) : Prop :=
  livePhase (s.threads i) g

/-- The generation a phase refers to, if any. -/
def usesGen : HPhase → Nat → Prop
  | .owner g', g => g' = g
  | .ownerSpawned g', g => g' = g
  | .ownerExited g' _, g => g' = g
  | .waiter g', g => g' = g
  | .waiterWoken g', g => g' = g
  | .reqStart, _ => False
  | .responded _, _ => False

/-- One if a registry entry is present, else zero. -/
def entryCount (s : HState) : Nat :=
  match s.entry with
  | some _ => 1
  | none => 0

/-- The inductive invariant of the coordinator. -/
structure HInv (s : HState) : Prop where
  /-- A live owner's generation is the registered entry. -/
  ownerEntry : ∀ i g, liveOwner s i g → s.entry = some g
  /-- At most one thread holds live ownership. -/
  ownerUniq : ∀ i j g g', liveOwner s i g → liveOwner s j g' → i = j
  /-- Generations mentioned by threads were created. -/
  genBound : ∀ i g, usesGen (s.threads i) g → g < s.nextGen
  /-- The registered generation was created. -/
  entryBound : ∀ g, s.entry = some g → g < s.nextGen
  /-- Entry creations are bounded by completions plus the live entry. -/
  creations : s.nextGen ≤ s.exited + entryCount s
  /-- With no running subprocess, starts equal exits. -/
  spawnsA : (∀ i g, s.threads i ≠ .ownerSpawned g) → s.spawns = s.exited
  /-- With a running subprocess, starts exceed exits by one. -/
  spawnsB : ∀ i g, s.threads i = .ownerSpawned g → s.spawns = s.exited + 1
  /-- Once any request moved past the registry check, an entry was
  created. -/
  arrived : ∀ i, s.threads i ≠ .reqStart → 1 ≤ s.nextGen
  /-- The playlist file is absent or holds the generated manifest. -/
  playlistInv : s.playlist = none ∨ s.playlist = some generatedManifest
  /-- Every manifest response carries the generated manifest. -/
  manifestOut : ∀ i c, s.threads i = .responded (.manifest c) → c = generatedManifest

/-! ## Concrete scenario data used by the theorems below -/

/-- The state after request 0 creates the first registry entry. -/
def c1s1 : HState :=
  { hInit with entry := some hInit.nextGen, nextGen := hInit.nextGen + 1,
               threads := Function.update hInit.threads 0 (.owner hInit.nextGen) }

/-- The state after request 0 also starts the subprocess. -/
def c1s2 : HState :=
  { c1s1 with spawns := c1s1.spawns + 1,
              threads := Function.update c1s1.threads 0 (.ownerSpawned 0) }

/-- Request 1 joins request 0's in-flight entry as a waiter. -/
def c1c2 : HState :=
  { c1s1 with threads := Function.update c1s1.threads 1 (.waiter 0) }

/-- Request 0 starts the subprocess. -/
def c1c3 : HState :=
  { c1c2 with spawns := c1c2.spawns + 1,
              threads := Function.update c1c2.threads 0 (.ownerSpawned 0) }

/-- The subprocess fails; the goroutine evicts the entry and closes
`doneChan` without a playlist having been written. -/
def c1c4 : HState :=
  { c1c3 with entry := none, closedGens := 0 :: c1c3.closedGens,
              exited := c1c3.exited + 1,
              threads := Function.update c1c3.threads 0 (.ownerExited 0 false) }

/-- Request 0 responds 500 `ffmpeg processing failed`. -/
def c1c5 : HState :=
  { c1c4 with threads := Function.update c1c4.threads 0 (.responded .ffmpegFailed) }

/-- Request 1 wakes from `doneChan`. -/
def c1c6 : HState :=
  { c1c5 with threads := Function.update c1c5.threads 1 (.waiterWoken 0) }

/-- Request 1 tries to read the playlist, which does not exist, and
responds 500 `failed to read playlist`. -/
def c1c7 : HState :=
  { c1c6 with threads :=
      Function.update c1c6.threads 1 (.responded (readPlaylistOutcome c1c6.playlist)) }

/-- Request 0 creates and runs the first job to success, serving the
manifest, after which request 1 arrives, creates a second entry and
starts a second subprocess for the very same token. -/
def c3s1 : HState := c1s1

/-- Request 0 starts the first subprocess. -/
def c3s2 : HState :=
  { c3s1 with spawns := c3s1.spawns + 1,
              threads := Function.update c3s1.threads 0 (.ownerSpawned 0) }

/-- The first subprocess succeeds: playlist written, entry evicted. -/
def c3s3 : HState :=
  { c3s2 with entry := none, closedGens := 0 :: c3s2.closedGens,
              exited := c3s2.exited + 1, playlist := some generatedManifest,
              threads := Function.update c3s2.threads 0 (.ownerExited 0 true) }

/-- Request 0 reads the playlist back and serves it. -/
def c3s4 : HState :=
  { c3s3 with threads :=
      Function.update c3s3.threads 0 (.responded (readPlaylistOutcome c3s3.playlist)) }

/-- Request 1 arrives after completion: the registry is empty again, so
it creates a second entry. -/
def c3s5 : HState :=
  { c3s4 with entry := some c3s4.nextGen, nextGen := c3s4.nextGen + 1,
              threads := Function.update c3s4.threads 1 (.owner c3s4.nextGen) }

/-- Request 1 starts a second subprocess. -/
def c3s6 : HState :=
  { c3s5 with spawns := c3s5.spawns + 1,
              threads := Function.update c3s5.threads 1 (.ownerSpawned 1) }

/-- The second subprocess also succeeds. -/
def c3s7 : HState :=
  { c3s6 with entry := none, closedGens := 1 :: c3s6.closedGens,
              exited := c3s6.exited + 1, playlist := some generatedManifest,
              threads := Function.update c3s6.threads 1 (.ownerExited 1 true) }

/-- Request 1 serves the regenerated manifest. -/
def c3s8 : HState :=
  { c3s7 with threads :=
      Function.update c3s7.threads 1 (.responded (readPlaylistOutcome c3s7.playlist)) }

/-- A representative token value (tokens are 64-character hex
strings; the traversal below is independent of the value). -/
def c2Token : String := "aaaaaaaaaaaaaaaaaaaaaaaaaaaaaaaaaaaaaaaaaaaaaaaaaaaaaaaaaaaaaaaa"

/-- The fixed request start 1970-01-01T00:00:00Z used in the token
collision. -/
def c4Start : GoTime := ⟨0, 0, 0⟩

/-- The concrete first segment of the C5 sign counterexample: it
starts at time 0, all its I/O succeeds, and the request starts at 10
inside it. -/
def c5Seg : SegSrc := ⟨0, true, some ⟨[1]⟩, [0, 5, 20], true⟩

/-- The C8 witness data: a second segment with different tracks, and a
trailing segment that would fail if it were ever opened. -/
def c8Seg0 : SegSrc := ⟨0, true, some ⟨[1]⟩, [0, 5], true⟩

def c8Seg1 : SegSrc := ⟨60, true, some ⟨[2]⟩, [0], true⟩

def c8SegBad : SegSrc := ⟨120, false, none, [], false⟩

/-- The concrete inputs of the C9 witness. -/
def c9Start : GoTime := ⟨1704067200, 0, 0⟩

/-- The C10 witness directory listing: a fresh directory, an old
directory, and an old plain file. -/
def c10Entries : List FsEntry :=
  [⟨"young", true, 9000000000000, true⟩,
   ⟨"old", true, 1000000000000, true⟩,
   ⟨"oldfile", false, 1000000000000, true⟩]

/-! ## Sanity checks of the embedded library functions -/

example : SHA256.hexString (SHA256.sha256 (strBytes "abc")) =
    "ba7816bf8f01cfea414140de5dae2223b00361a396177a9cb410ff61f20015ad" := by
  decide

example : parseDuration "3" = .ok 3000000000 := by rfl
example : parseDuration "-5" = .ok (-5000000000) := by rfl
example : parseDuration "1.5" = .ok 1500000000 := by rfl
example : parseDuration "2h" = .ok 7200000000000 := by rfl
example : parseDuration "-1m30s" = .ok (-90000000000) := by rfl
example : parseDuration "abc" = .error "invalid duration" := by rfl
example : durationString 0 = "0s" := by decide
example : durationString 90500000000 = "1m30.5s" := by decide
example : durationString (-1500) = "-1.5µs" := by decide
example : durationString 3600000000000 = "1h0m0s" := by decide
example : formatRFC3339 ⟨0, 0, 0⟩ = "1970-01-01T00:00:00Z" := by decide
example : formatRFC3339 ⟨1704067199, 0, 0⟩ = "2023-12-31T23:59:59Z" := by decide
example : parseRFC3339 "2024-01-01T00:00:00Z" = some ⟨1704067200, 0, 0⟩ := by decide
example : parseRFC3339 "2024-01-01T05:30:00+05:30" = some ⟨1704067200, 0, 19800⟩ := by
  decide
example : parseRFC3339 "2024-02-30T00:00:00Z" = none := by decide
example : parseRFC3339 "2024-01-01T00:00:00.5Z" = some ⟨1704067200, 500000000, 0⟩ := by
  decide

example : goClean "./mediamtx_hls/tok" = "mediamtx_hls/tok" := by decide
example : goJoin ["mediamtx_hls/tok", "../../etc/passwd"] = "etc/passwd" := by decide
example : goClean "/a/../../b" = "/b" := by decide

theorem hInv_init : HInv hInit := by
  refine ⟨?_, ?_, ?_, ?_, ?_, ?_, ?_, ?_, ?_, ?_⟩ <;>
    simp [hInit, liveOwner, livePhase, usesGen, entryCount]

theorem readPlaylist_manifest {s : HState} (inv : HInv s) :
    ∀ c, readPlaylistOutcome s.playlist = .manifest c → c = generatedManifest := by
  intro c h
  rcases inv.playlistInv with hp | hp
  · rw [hp] at h
    exact HLSOutcome.noConfusion h
  · rw [hp] at h
    simp only [readPlaylistOutcome, HLSOutcome.manifest.injEq] at h
    exact h.symm

/-- Preservation helper: a thread in a non-running phase responds with
an outcome which, when a manifest, carries the generated manifest. -/
theorem hInvRespond {s : HState} (inv : HInv s) {i : Nat} {p : HPhase}
    (hth : s.threads i = p) (hnrs : p ≠ .reqStart)
    (hnsp : ∀ g', p ≠ .ownerSpawned g')
    {o : HLSOutcome} (hom : ∀ c, o = .manifest c → c = generatedManifest) :
    HInv { s with threads := Function.update s.threads i (.responded o) } := by
  refine ⟨?_, ?_, ?_, inv.entryBound, inv.creations, ?_, ?_, ?_, inv.playlistInv, ?_⟩ <;>
    dsimp only
  · intro j g' hl
    by_cases hj : j = i
    · subst hj
      simp only [liveOwner, livePhase, Function.update_same] at hl
      rcases hl with h | h <;> exact HPhase.noConfusion h
    · exact inv.ownerEntry j g' (by
        simpa [liveOwner, livePhase, Function.update_noteq hj] using hl)
  · intro j k g1 g2 hj hk
    by_cases hji : j = i
    · subst hji
      simp only [liveOwner, livePhase, Function.update_same] at hj
      rcases hj with h | h <;> exact HPhase.noConfusion h
    · by_cases hki : k = i
      · subst hki
        simp only [liveOwner, livePhase, Function.update_same] at hk
        rcases hk with h | h <;> exact HPhase.noConfusion h
      · exact inv.ownerUniq j k g1 g2
          (by simpa [liveOwner, livePhase, Function.update_noteq hji] using hj)
          (by simpa [liveOwner, livePhase, Function.update_noteq hki] using hk)
  · intro j g' hu
    by_cases hj : j = i
    · subst hj
      simp only [Function.update_same, usesGen] at hu
    · rw [Function.update_noteq hj] at hu
      exact inv.genBound j g' hu
  · intro hnone
    apply inv.spawnsA
    intro j g'
    by_cases hj : j = i
    · subst hj; rw [hth]; exact hnsp g'
    · have := hnone j g'
      rwa [Function.update_noteq hj] at this
  · intro j g' hj
    by_cases hji : j = i
    · subst hji
      rw [Function.update_same] at hj
      exact HPhase.noConfusion hj
    · rw [Function.update_noteq hji] at hj
      exact inv.spawnsB j g' hj
  · intro j _
    exact inv.arrived i (by rw [hth]; exact hnrs)
  · intro j c hj
    by_cases hji : j = i
    · subst hji
      rw [Function.update_same] at hj
      exact hom c (by injection hj)
    · rw [Function.update_noteq hji] at hj
      exact inv.manifestOut j c hj

/-- Preservation helper: the running subprocess of entry `g` exits;
the goroutine evicts the entry and closes `doneChan` (lines 346-362). -/
theorem hInvExit {s : HState} (inv : HInv s) {i g : Nat}
    (hth : s.threads i = .ownerSpawned g) (ok : Bool) {pl : Option String}
    (hpl : pl = none ∨ pl = some generatedManifest) :
    HInv { s with entry := none, closedGens := g :: s.closedGens,
                  exited := s.exited + 1, playlist := pl,
                  threads := Function.update s.threads i (.ownerExited g ok) } := by
  have hlive : liveOwner s i g := Or.inr hth
  have noLivePost : ∀ j g',
      ¬ livePhase (Function.update s.threads i (.ownerExited g ok) j) g' := by
    intro j g' hl
    by_cases hj : j = i
    · subst hj
      rw [Function.update_same] at hl
      rcases hl with h | h <;> exact HPhase.noConfusion h
    · rw [Function.update_noteq hj] at hl
      exact hj (inv.ownerUniq j i g' g hl hlive)
  refine ⟨?_, ?_, ?_, ?_, ?_, ?_, ?_, ?_, hpl, ?_⟩ <;> dsimp only
  · intro j g' hl
    exact absurd hl (noLivePost j g')
  · intro j k g1 g2 hj hk
    exact absurd hj (noLivePost j g1)
  · intro j g' hu
    by_cases hj : j = i
    · rw [hj, Function.update_same] at hu
      simp only [usesGen] at hu
      rw [← hu]
      exact inv.genBound i g (by rw [hth]; rfl)
    · rw [Function.update_noteq hj] at hu
      exact inv.genBound j g' hu
  · intro g' hg
    exact Option.noConfusion hg
  · have h1 := inv.creations
    have h2 : entryCount s = 1 := by
      simp [entryCount, inv.ownerEntry i g hlive]
    simp only [entryCount]
    omega
  · intro _
    have := inv.spawnsB i g hth
    omega
  · intro j g' hj
    by_cases hji : j = i
    · subst hji
      rw [Function.update_same] at hj
      exact HPhase.noConfusion hj
    · rw [Function.update_noteq hji] at hj
      exfalso
      exact hji (inv.ownerUniq j i g' g (Or.inr hj) hlive)
  · intro j _
    exact inv.arrived i (by rw [hth]; exact fun h => HPhase.noConfusion h)
  · intro j c hj
    by_cases hji : j = i
    · subst hji
      rw [Function.update_same] at hj
      exact HPhase.noConfusion hj
    · rw [Function.update_noteq hji] at hj
      exact inv.manifestOut j c hj

theorem hInv_step {s s' : HState} (inv : HInv s) (st : HStep s s') : HInv s' := by
  cases st with
  | arriveNew i hth hentry =>
    have noLive : ∀ j g, ¬ liveOwner s j g := by
      intro j g hl
      have := inv.ownerEntry j g hl
      rw [hentry] at this
      exact Option.noConfusion this
    refine ⟨?_, ?_, ?_, ?_, ?_, ?_, ?_, ?_, ?_, ?_⟩ <;> dsimp only
    · intro j g hl
      by_cases hj : j = i
      · subst hj
        simp only [liveOwner, livePhase, Function.update_same] at hl
        rcases hl with h | h
        · cases h; rfl
        · exact HPhase.noConfusion h
      · exfalso
        apply noLive j g
        simpa [liveOwner, livePhase, Function.update_noteq hj] using hl
    · intro j k g g' hj hk
      by_cases hji : j = i
      · by_cases hki : k = i
        · rw [hji, hki]
        · exfalso
          apply noLive k g'
          simpa [liveOwner, livePhase, Function.update_noteq hki] using hk
      · exfalso
        apply noLive j g
        simpa [liveOwner, livePhase, Function.update_noteq hji] using hj
    · intro j g hu
      by_cases hj : j = i
      · subst hj
        simp only [Function.update_same, usesGen] at hu
        omega
      · rw [Function.update_noteq hj] at hu
        have := inv.genBound j g hu
        omega
    · intro g hg
      injection hg with hg
      omega
    · have := inv.creations
      have he : entryCount s = 0 := by simp [entryCount, hentry]
      simp only [entryCount]
      omega
    · intro hnone
      apply inv.spawnsA
      intro j g
      by_cases hj : j = i
      · subst hj; rw [hth]; exact fun h => HPhase.noConfusion h
      · have := hnone j g
        rwa [Function.update_noteq hj] at this
    · intro j g hj
      by_cases hji : j = i
      · subst hji
        rw [Function.update_same] at hj
        exact HPhase.noConfusion hj
      · rw [Function.update_noteq hji] at hj
        exact inv.spawnsB j g hj
    · intro j _; omega
    · exact inv.playlistInv
    · intro j c hj
      by_cases hji : j = i
      · subst hji
        rw [Function.update_same] at hj
        exact HPhase.noConfusion hj
      · rw [Function.update_noteq hji] at hj
        exact inv.manifestOut j c hj
  | arriveJoin i g hth hentry =>
    refine ⟨?_, ?_, ?_, inv.entryBound, inv.creations, ?_, ?_, ?_, inv.playlistInv, ?_⟩ <;>
      dsimp only
    · intro j g' hl
      by_cases hj : j = i
      · subst hj
        simp only [liveOwner, livePhase, Function.update_same] at hl
        rcases hl with h | h <;> exact HPhase.noConfusion h
      · exact inv.ownerEntry j g' (by
          simpa [liveOwner, livePhase, Function.update_noteq hj] using hl)
    · intro j k g1 g2 hj hk
      by_cases hji : j = i
      · subst hji
        simp only [liveOwner, livePhase, Function.update_same] at hj
        rcases hj with h | h <;> exact HPhase.noConfusion h
      · by_cases hki : k = i
        · subst hki
          simp only [liveOwner, livePhase, Function.update_same] at hk
          rcases hk with h | h <;> exact HPhase.noConfusion h
        · exact inv.ownerUniq j k g1 g2
            (by simpa [liveOwner, livePhase, Function.update_noteq hji] using hj)
            (by simpa [liveOwner, livePhase, Function.update_noteq hki] using hk)
    · intro j g' hu
      by_cases hj : j = i
      · subst hj
        simp only [Function.update_same, usesGen] at hu
        subst hu
        exact inv.entryBound g hentry
      · rw [Function.update_noteq hj] at hu
        exact inv.genBound j g' hu
    · intro hnone
      apply inv.spawnsA
      intro j g'
      by_cases hj : j = i
      · subst hj; rw [hth]; exact fun h => HPhase.noConfusion h
      · have := hnone j g'
        rwa [Function.update_noteq hj] at this
    · intro j g' hj
      by_cases hji : j = i
      · subst hji
        rw [Function.update_same] at hj
        exact HPhase.noConfusion hj
      · rw [Function.update_noteq hji] at hj
        exact inv.spawnsB j g' hj
    · intro j _
      have := inv.entryBound g hentry
      omega
    · intro j c hj
      by_cases hji : j = i
      · subst hji
        rw [Function.update_same] at hj
        exact HPhase.noConfusion hj
      · rw [Function.update_noteq hji] at hj
        exact inv.manifestOut j c hj
  | setupFail i g hth =>
    exact hInvRespond inv hth (by exact fun h => HPhase.noConfusion h)
      (by intro g' h; exact HPhase.noConfusion h)
      (by intro c h; exact HLSOutcome.noConfusion h)
  | startFail i g hth =>
    exact hInvRespond inv hth (by exact fun h => HPhase.noConfusion h)
      (by intro g' h; exact HPhase.noConfusion h)
      (by intro c h; exact HLSOutcome.noConfusion h)
  | spawn i g hth =>
    have hlive : liveOwner s i g := Or.inl hth
    have noSpawned : ∀ j g', s.threads j ≠ .ownerSpawned g' := by
      intro j g' hj
      have : liveOwner s j g' := Or.inr hj
      have hji := inv.ownerUniq j i g' g this hlive
      subst hji
      rw [hth] at hj
      exact HPhase.noConfusion hj
    refine ⟨?_, ?_, ?_, inv.entryBound, inv.creations, ?_, ?_, ?_, inv.playlistInv, ?_⟩ <;>
      dsimp only
    · intro j g' hl
      by_cases hj : j = i
      · rw [hj] at hl
        simp only [liveOwner, livePhase, Function.update_same] at hl
        rcases hl with h | h
        · exact HPhase.noConfusion h
        · injection h with h1
          rw [← h1]
          exact inv.ownerEntry i g hlive
      · exact inv.ownerEntry j g' (by
          simpa [liveOwner, livePhase, Function.update_noteq hj] using hl)
    · intro j k g1 g2 hj hk
      by_cases hji : j = i
      · by_cases hki : k = i
        · rw [hji, hki]
        · exfalso
          have hk' : liveOwner s k g2 := by
            simpa [liveOwner, livePhase, Function.update_noteq hki] using hk
          have := inv.ownerUniq k i g2 g hk' hlive
          exact hki this
      · exfalso
        have hj' : liveOwner s j g1 := by
          simpa [liveOwner, livePhase, Function.update_noteq hji] using hj
        have := inv.ownerUniq j i g1 g hj' hlive
        exact hji this
    · intro j g' hu
      by_cases hj : j = i
      · rw [hj, Function.update_same] at hu
        simp only [usesGen] at hu
        rw [← hu]
        exact inv.genBound i g (by rw [hth]; rfl)
      · rw [Function.update_noteq hj] at hu
        exact inv.genBound j g' hu
    · intro hnone
      exfalso
      exact hnone i g (Function.update_same i _ _)
    · intro j g' hj
      have : s.spawns = s.exited := inv.spawnsA noSpawned
      omega
    · intro j _
      exact inv.arrived i (by rw [hth]; exact fun h => HPhase.noConfusion h)
    · intro j c hj
      by_cases hji : j = i
      · subst hji
        rw [Function.update_same] at hj
        exact HPhase.noConfusion hj
      · rw [Function.update_noteq hji] at hj
        exact inv.manifestOut j c hj
  | exitOk i g hth =>
    exact hInvExit inv hth true (Or.inr rfl)
  | exitFail i g hth =>
    exact hInvExit inv hth false inv.playlistInv

  | ownerServe i g hth =>
    exact hInvRespond inv hth (by exact fun h => HPhase.noConfusion h)
      (by intro g' h; exact HPhase.noConfusion h)
      (readPlaylist_manifest inv)
  | ownerFail i g hth =>
    exact hInvRespond inv hth (by exact fun h => HPhase.noConfusion h)
      (by intro g' h; exact HPhase.noConfusion h)
      (by intro c h; exact HLSOutcome.noConfusion h)
  | waiterWake i g hth hcl =>
    refine ⟨?_, ?_, ?_, inv.entryBound, inv.creations, ?_, ?_, ?_, inv.playlistInv, ?_⟩ <;>
      dsimp only
    · intro j g' hl
      by_cases hj : j = i
      · subst hj
        simp only [liveOwner, livePhase, Function.update_same] at hl
        rcases hl with h | h <;> exact HPhase.noConfusion h
      · exact inv.ownerEntry j g' (by
          simpa [liveOwner, livePhase, Function.update_noteq hj] using hl)
    · intro j k g1 g2 hj hk
      by_cases hji : j = i
      · subst hji
        simp only [liveOwner, livePhase, Function.update_same] at hj
        rcases hj with h | h <;> exact HPhase.noConfusion h
      · by_cases hki : k = i
        · subst hki
          simp only [liveOwner, livePhase, Function.update_same] at hk
          rcases hk with h | h <;> exact HPhase.noConfusion h
        · exact inv.ownerUniq j k g1 g2
            (by simpa [liveOwner, livePhase, Function.update_noteq hji] using hj)
            (by simpa [liveOwner, livePhase, Function.update_noteq hki] using hk)
    · intro j g' hu
      by_cases hj : j = i
      · rw [hj, Function.update_same] at hu
        simp only [usesGen] at hu
        rw [← hu]
        exact inv.genBound i g (by rw [hth]; rfl)
      · rw [Function.update_noteq hj] at hu
        exact inv.genBound j g' hu
    · intro hnone
      apply inv.spawnsA
      intro j g'
      by_cases hj : j = i
      · subst hj; rw [hth]; exact fun h => HPhase.noConfusion h
      · have := hnone j g'
        rwa [Function.update_noteq hj] at this
    · intro j g' hj
      by_cases hji : j = i
      · subst hji
        rw [Function.update_same] at hj
        exact HPhase.noConfusion hj
      · rw [Function.update_noteq hji] at hj
        exact inv.spawnsB j g' hj
    · intro j _
      exact inv.arrived i (by rw [hth]; exact fun h => HPhase.noConfusion h)
    · intro j c hj
      by_cases hji : j = i
      · subst hji
        rw [Function.update_same] at hj
        exact HPhase.noConfusion hj
      · rw [Function.update_noteq hji] at hj
        exact inv.manifestOut j c hj
  | waiterServe i g hth =>
    exact hInvRespond inv hth (by exact fun h => HPhase.noConfusion h)
      (by intro g' h; exact HPhase.noConfusion h)
      (readPlaylist_manifest inv)
  | waiterCancel i g hth =>
    exact hInvRespond inv hth (by exact fun h => HPhase.noConfusion h)
      (by intro g' h; exact HPhase.noConfusion h)
      (by intro c h; exact HLSOutcome.noConfusion h)

theorem hReach_inv {s : HState} (hs : HReach s) : HInv s := by
  induction hs with
  | refl => exact hInv_init
  | tail _ st ih => exact hInv_step ih st

/-- Claim C1 (amended): in every reachable coordinator state, at most
one subprocess is running for the token; while no subprocess has
completed, at most one registry entry was ever created (exactly one
once any request passed the registry check) and at most one subprocess
was started, every other request having joined as a waiter; and every
request that is answered with a manifest receives the same generated
manifest.  (On failure the owner and the waiters do not receive the
same error: see the counterexample.) -/
theorem hls_dedup_invariant (s : HState) (hs : HReach s) :
    (∀ i j gi gj, s.threads i = .ownerSpawned gi → s.threads j = .ownerSpawned gj →
      i = j)
    ∧ (s.exited = 0 → (∃ i, s.threads i ≠ .reqStart) →
        s.nextGen = 1 ∧ s.spawns ≤ 1)
    ∧ (∀ i c, s.threads i = .responded (.manifest c) → c = generatedManifest) := by
  have inv := hReach_inv hs
  refine ⟨?_, ?_, inv.manifestOut⟩
  · intro i j gi gj hi hj
    exact inv.ownerUniq i j gi gj (Or.inr hi) (Or.inr hj)
  · intro hex harr
    obtain ⟨i, hi⟩ := harr
    have h1 := inv.arrived i hi
    have h2 := inv.creations
    have hec : entryCount s ≤ 1 := by
      cases he : s.entry <;> simp [entryCount, he]
    have hng : s.nextGen = 1 := by omega
    refine ⟨hng, ?_⟩
    by_cases hr : ∃ k gk, s.threads k = .ownerSpawned gk
    · obtain ⟨k, gk, hk⟩ := hr
      have := inv.spawnsB k gk hk
      omega
    · push_neg at hr
      have := inv.spawnsA hr
      omega

theorem hls_dedup_invariant_witness : c1s2.nextGen = 1 ∧ c1s2.spawns ≤ 1 :=
  (hls_dedup_invariant c1s2
      (Relation.ReflTransGen.tail
        (Relation.ReflTransGen.tail Relation.ReflTransGen.refl
          (HStep.arriveNew hInit 0 rfl rfl))
        (HStep.spawn c1s1 0 0 rfl))).2.1
    rfl ⟨0, by intro h; exact HPhase.noConfusion h⟩

/-- Claim C1 (counterexample): two concurrent identical requests where
the single subprocess fails reach a state in which the owner responded
500 `ffmpeg processing failed` while the waiter responded 500 `failed
to read playlist` — they do not observe the same error. -/
theorem hls_dedup_failure_outcomes_differ :
    HReach c1c7 ∧ c1c7.threads 0 = .responded .ffmpegFailed
    ∧ c1c7.threads 1 = .responded .readPlaylistFailed
    ∧ HLSOutcome.ffmpegFailed ≠ HLSOutcome.readPlaylistFailed := by
  refine ⟨?_, rfl, rfl, by decide⟩
  exact Relation.ReflTransGen.tail
    (Relation.ReflTransGen.tail
      (Relation.ReflTransGen.tail
        (Relation.ReflTransGen.tail
          (Relation.ReflTransGen.tail
            (Relation.ReflTransGen.tail
              (Relation.ReflTransGen.tail Relation.ReflTransGen.refl
                (HStep.arriveNew hInit 0 rfl rfl))
              (HStep.arriveJoin c1s1 1 0 rfl rfl))
            (HStep.spawn c1c2 0 0 rfl))
          (HStep.exitFail c1c3 0 0 rfl))
        (HStep.ownerFail c1c4 0 0 rfl))
      (HStep.waiterWake c1c5 1 0 rfl (by decide)))
    (HStep.waiterServe c1c6 1 0 rfl)

theorem c3_reach_s4 : HReach c3s4 :=
  Relation.ReflTransGen.tail
    (Relation.ReflTransGen.tail
      (Relation.ReflTransGen.tail
        (Relation.ReflTransGen.tail Relation.ReflTransGen.refl
          (HStep.arriveNew hInit 0 rfl rfl))
        (HStep.spawn c3s1 0 0 rfl))
      (HStep.exitOk c3s2 0 0 rfl))
    (HStep.ownerServe c3s3 0 0 rfl)

/-- Claim C3 (counterexample): request 0's HLS job has fully completed
(it responded with the manifest); re-requesting the same token then
reaches a state with a second subprocess execution (`spawns = 2`) —
the cached manifest is not served without re-invoking the encoder. -/
theorem hls_rerequest_respawns :
    HReach c3s6 ∧ c3s6.threads 0 = .responded (.manifest generatedManifest)
    ∧ c3s6.threads 1 = .ownerSpawned 1 ∧ c3s6.spawns = 2 := by
  refine ⟨?_, rfl, rfl, rfl⟩
  exact Relation.ReflTransGen.tail
    (Relation.ReflTransGen.tail c3_reach_s4
      (HStep.arriveNew c3s4 1 rfl rfl))
    (HStep.spawn c3s5 1 1 rfl)

/-- Claim C3 (amended): re-requesting an HLS job after the previous job
for the token completed creates a fresh registry entry (completion
evicted the old one) and re-invokes the encoder subprocess; the
re-request is answered with the freshly regenerated manifest, which for
identical parameters has the same content as the first one. -/
theorem hls_rerequest_regenerates :
    HReach c3s8 ∧ c3s8.spawns = 2 ∧ c3s8.exited = 2
    ∧ c3s8.threads 0 = .responded (.manifest generatedManifest)
    ∧ c3s8.threads 1 = .responded (.manifest generatedManifest) := by
  refine ⟨?_, rfl, rfl, rfl, rfl⟩
  exact Relation.ReflTransGen.tail
    (Relation.ReflTransGen.tail
      (Relation.ReflTransGen.tail
        (Relation.ReflTransGen.tail c3_reach_s4
          (HStep.arriveNew c3s4 1 rfl rfl))
        (HStep.spawn c3s5 1 1 rfl))
      (HStep.exitOk c3s6 1 1 rfl))
    (HStep.ownerServe c3s7 1 1 rfl)

/-- Claim C2 (code bug): `handleHLS` hands
`filepath.Join(hlsDir, segFile)` straight to `ctx.File`; `Join`
resolves `..` components lexically, so
`file=../../../etc/passwd` makes the handler serve `../etc/passwd` —
a file outside `./mediamtx_hls/<token>` (and outside the working
directory). -/
theorem hls_file_param_escapes_dir :
    handleHLSServedFile c2Token "../../../etc/passwd" = "../etc/passwd"
    ∧ withinDir (hlsDirOf c2Token)
        (handleHLSServedFile c2Token "../../../etc/passwd") = false := by
  constructor <;> decide

/-- Claim C4 (counterexample): `computeToken` concatenates the four
fields with no separators, so the tuples `("ab", "c", t, d)` and
`("a", "bc", t, d)` — which differ in the client and path inputs —
hash the same byte stream and receive the identical token. -/
theorem computeToken_boundary_collision :
    computeToken "ab" "c" c4Start 0 = computeToken "a" "bc" c4Start 0
    ∧ ("ab", "c") ≠ (("a" : String), ("bc" : String)) := by
  refine ⟨?_, by decide⟩
  have h : encodeTokenInput "ab" "c" c4Start 0 = encodeTokenInput "a" "bc" c4Start 0 := by
    decide
  unfold computeToken
  rw [h]

/-- Claim C4 (amended): `computeToken` is deterministic, and tokens
depend on the inputs only through the concatenated byte encoding of
the four fields: tuples with equal concatenated encodings receive the
identical token, so tuples differing in an input can still collide
(field-boundary shifts); tuples with different encodings differ only
up to SHA-256 collisions. -/
theorem computeToken_deterministic (c p : String) (s : GoTime) (d : Int)
    (c' p' : String) (s' : GoTime) (d' : Int)
    (h : encodeTokenInput c p s d = encodeTokenInput c' p' s' d') :
    computeToken c p s d = computeToken c p s d
    ∧ computeToken c p s d = computeToken c' p' s' d' := by
  refine ⟨rfl, ?_⟩
  unfold computeToken
  rw [h]

theorem computeToken_deterministic_witness :
    computeToken "ab" "c" c4Start 0 = computeToken "ab" "c" c4Start 0
    ∧ computeToken "ab" "c" c4Start 0 = computeToken "a" "bc" c4Start 0 :=
  computeToken_deterministic "ab" "c" c4Start 0 "a" "bc" c4Start 0 (by decide)

/-- Claim C6 (counterexample): an error wrapping a `net.OpError`
returned by `seekAndMux` when no body byte has been written is not
answered with any structured response — `onGet` returns silently
(`on_get.go` lines 190-194), against the claim's "always a structured
status-and-text response before the first byte". -/
theorem mux_error_netop_silent :
    onGetMuxFailure false .netOpError = .silentReturn
    ∧ MuxFailureAction.silentReturn ≠ .respondError 400
    ∧ MuxFailureAction.silentReturn ≠ .respondError 404 := by
  decide

/-- Claim C6 (amended): for every `seekAndMux` error other than a
client-abort `net.OpError`, the handler sends a structured
status-and-text response while no body byte has been written (404 for
no-segments, 400 otherwise) and only logs once a body byte has been
written; a `net.OpError` is swallowed silently in either case. -/
theorem mux_error_bifurcation (e : SeekMuxErrClass) (he : e ≠ .netOpError) :
    onGetMuxFailure false e
      = .respondError (if e = .noSegmentsFound then 404 else 400)
    ∧ onGetMuxFailure true e = .logOnly
    ∧ onGetMuxFailure false .netOpError = .silentReturn
    ∧ onGetMuxFailure true .netOpError = .silentReturn := by
  cases e with
  | netOpError => exact absurd rfl he
  | noSegmentsFound => exact ⟨by decide, by decide, by decide, by decide⟩
  | otherError => exact ⟨by decide, by decide, by decide, by decide⟩

theorem mux_error_bifurcation_witness :
    onGetMuxFailure false .otherError
      = .respondError (if SeekMuxErrClass.otherError = .noSegmentsFound then 404 else 400)
    ∧ onGetMuxFailure true .otherError = .logOnly
    ∧ onGetMuxFailure false .netOpError = .silentReturn
    ∧ onGetMuxFailure true .netOpError = .silentReturn :=
  mux_error_bifurcation .otherError (by decide)

/-- Claim C7 (counterexample): the `duration` validation has no sign
check — `duration=-5` parses through the plain-seconds branch to the
negative duration -5s and is accepted, not rejected as a client
error. -/
theorem duration_negative_accepted :
    onGetValidateDuration "-5" = .accepted (-5000000000)
    ∧ (-5000000000 : Int) < 0 := by
  decide

/-- Claim C7 (amended): the pre-I/O validation accepts `duration`
exactly when it parses under either accepted form — a plain (possibly
signed, possibly fractional) decimal number of seconds or the legacy
Go duration string — with no sign restriction; only parse failures are
rejected, as a 400 client error. -/
theorem duration_validation_parse_only :
    onGetValidateDuration "-5" = .accepted (-5000000000)
    ∧ onGetValidateDuration "-5s" = .accepted (-5000000000)
    ∧ onGetValidateDuration "1.5" = .accepted 1500000000
    ∧ onGetValidateDuration "2h" = .accepted 7200000000000
    ∧ onGetValidateDuration "watermelon" = .rejected 400 := by
  refine ⟨?_, ?_, ?_, ?_, ?_⟩ <;> decide

theorem muxParts_nonneg (pt : List Int) (off dur t : Int)
    (ht : t ∈ (segmentFMP4MuxParts pt off dur).2) : 0 ≤ t := by
  simp only [segmentFMP4MuxParts, List.mem_filter, decide_eq_true_eq] at ht
  have h0 : (0 : Int) ≤ max 0 (-off) := le_max_left 0 (-off)
  omega

theorem seekAndMuxLoop_calls (fi : TrackSet) (start duration : Int) :
    ∀ (segs : List SegSrc) (segEnd : Int) (tr : MuxTrace),
      ∃ suf, (seekAndMuxLoop fi start duration segs segEnd tr).2.muxCalls
          = tr.muxCalls ++ suf
        ∧ ∀ c ∈ suf, ∀ t ∈ c.2, 0 ≤ t := by
  intro segs
  induction segs with
  | nil =>
    intro segEnd tr
    exact ⟨[], by simp [seekAndMuxLoop]⟩
  | cons seg rest ih =>
    intro segEnd tr
    by_cases ho : seg.openOk = false
    · exact ⟨[], by simp [seekAndMuxLoop, ho]⟩
    · rw [Bool.not_eq_false] at ho
      cases hh : seg.header with
      | none => exact ⟨[], by simp [seekAndMuxLoop, ho, hh]⟩
      | some init =>
        by_cases hcc : segmentFMP4CanBeConcatenated fi segEnd init seg.segStart = false
        · exact ⟨[], by simp [seekAndMuxLoop, ho, hh, hcc]⟩
        · rw [Bool.not_eq_false] at hcc
          by_cases hm : seg.muxOk = false
          · exact ⟨[], by simp [seekAndMuxLoop, ho, hh, hcc, hm]⟩
          · rw [Bool.not_eq_false] at hm
            obtain ⟨suf, hsuf, hpos⟩ :=
              ih (start + (segmentFMP4MuxParts seg.partTimes (seg.segStart - start)
                    duration).1)
                { tr with opened := tr.opened + 1,
                          muxCalls := tr.muxCalls ++
                            [(seg.segStart - start,
                              (segmentFMP4MuxParts seg.partTimes (seg.segStart - start)
                                duration).2)] }
            refine ⟨(seg.segStart - start,
                (segmentFMP4MuxParts seg.partTimes (seg.segStart - start) duration).2)
                :: suf, ?_, ?_⟩
            · simp only [seekAndMuxLoop, ho, hh, hcc, hm]
              simp only [Bool.true_eq_false, if_false, ite_false]
              rw [hsuf]
              simp
            · intro c hc
              rcases List.mem_cons.mp hc with hc | hc
              · subst hc
                intro t ht
                exact muxParts_nonneg _ _ _ t ht
              · exact hpos c hc

/-- Claim C5 (amended): in `seekAndMux` the offset passed to the muxer
for the first segment is `segments[0].start - start` (the negation of
the claimed `start - segments[0].start`; it is negative in the normal
case where `start` falls inside the segment), and — with
`segmentFMP4MuxParts` modelled from the spec — every local position
the muxer reads is nonnegative: reading is clamped to the segment's
beginning and never underflows. -/
theorem seekAndMux_first_offset (seg0 : SegSrc) (rest : List SegSrc)
    (start duration : Int) (flushOk : Bool) (fi : TrackSet)
    (ho : seg0.openOk = true) (hh : seg0.header = some fi) (hm : seg0.muxOk = true) :
    (seekAndMux .fmp4 seg0 rest start duration flushOk).2.muxCalls.head?
      = some (seg0.segStart - start,
          (segmentFMP4MuxParts seg0.partTimes (seg0.segStart - start) duration).2)
    ∧ ∀ c ∈ (seekAndMux .fmp4 seg0 rest start duration flushOk).2.muxCalls,
        ∀ t ∈ c.2, 0 ≤ t := by
  obtain ⟨suf, hsuf, hpos⟩ :=
    seekAndMuxLoop_calls fi start duration rest
      (start + (segmentFMP4MuxParts seg0.partTimes (seg0.segStart - start) duration).1)
      ⟨some fi, [(seg0.segStart - start,
        (segmentFMP4MuxParts seg0.partTimes (seg0.segStart - start) duration).2)], 1,
        false⟩
  have hcalls : (seekAndMux .fmp4 seg0 rest start duration flushOk).2.muxCalls
      = (seg0.segStart - start,
          (segmentFMP4MuxParts seg0.partTimes (seg0.segStart - start) duration).2)
        :: suf := by
    simp only [seekAndMux, ho, hh, hm]
    simp only [Bool.true_eq_false, if_false, ite_false]
    rcases hres : seekAndMuxLoop fi start duration rest
        (start + (segmentFMP4MuxParts seg0.partTimes (seg0.segStart - start)
          duration).1)
        ⟨some fi, [(seg0.segStart - start,
          (segmentFMP4MuxParts seg0.partTimes (seg0.segStart - start) duration).2)], 1,
          false⟩ with ⟨res, tr⟩
    rw [hres] at hsuf
    cases res with
    | error e => simpa using hsuf
    | ok u => cases flushOk <;> simpa using hsuf
  constructor
  · rw [hcalls]
    rfl
  · intro c hc t ht
    rw [hcalls] at hc
    rcases List.mem_cons.mp hc with hc | hc
    · subst hc
      exact muxParts_nonneg _ _ _ t ht
    · exact hpos c hc t ht

/-- Claim C5 (counterexample): for a request starting at 10 into a
segment starting at 0, the offset recorded for the first mux call is
-10 = segments[0].start - start, not the claimed
start - segments[0].start = 10. -/
theorem seekAndMux_offset_sign :
    ((seekAndMux .fmp4 c5Seg [] 10 100 true).2.muxCalls.map Prod.fst = [(-10 : Int)])
    ∧ ((-10 : Int) ≠ 10 - 0) := by
  decide

theorem seekAndMux_first_offset_witness :
    (seekAndMux .fmp4 c5Seg [] 10 100 true).2.muxCalls.head?
      = some (c5Seg.segStart - 10,
          (segmentFMP4MuxParts c5Seg.partTimes (c5Seg.segStart - 10) 100).2) :=
  (seekAndMux_first_offset c5Seg [] 10 100 true ⟨[1]⟩ rfl rfl rfl).1

/-- Claim C8 (confirmed): when the continuity check refuses the second
segment, `seekAndMux` stops consuming segments (the tail is never
opened: exactly two opens happen), flushes the muxer, and returns
success — the discontinuity closes the window and is not an error. -/
theorem seekAndMux_discontinuity_closes (seg0 s1 : SegSrc) (tail : List SegSrc)
    (start duration : Int) (fi h1 : TrackSet)
    (ho0 : seg0.openOk = true) (hh0 : seg0.header = some fi) (hm0 : seg0.muxOk = true)
    (ho1 : s1.openOk = true) (hh1 : s1.header = some h1)
    (hcc : segmentFMP4CanBeConcatenated fi
        (start + (segmentFMP4MuxParts seg0.partTimes (seg0.segStart - start) duration).1)
        h1 s1.segStart = false) :
    (seekAndMux .fmp4 seg0 (s1 :: tail) start duration true).1 = .ok ()
    ∧ (seekAndMux .fmp4 seg0 (s1 :: tail) start duration true).2.flushed = true
    ∧ (seekAndMux .fmp4 seg0 (s1 :: tail) start duration true).2.opened = 2
    ∧ (seekAndMux .fmp4 seg0 (s1 :: tail) start duration true).2.muxCalls.length = 1 := by
  simp [seekAndMux, seekAndMuxLoop, ho0, hh0, hm0, ho1, hh1, hcc]

theorem seekAndMux_discontinuity_closes_witness :
    (seekAndMux .fmp4 c8Seg0 (c8Seg1 :: [c8SegBad]) 0 100 true).1 = .ok ()
    ∧ (seekAndMux .fmp4 c8Seg0 (c8Seg1 :: [c8SegBad]) 0 100 true).2.flushed = true
    ∧ (seekAndMux .fmp4 c8Seg0 (c8Seg1 :: [c8SegBad]) 0 100 true).2.opened = 2
    ∧ (seekAndMux .fmp4 c8Seg0 (c8Seg1 :: [c8SegBad]) 0 100 true).2.muxCalls.length
        = 1 :=
  seekAndMux_discontinuity_closes c8Seg0 c8Seg1 [c8SegBad] 0 100 ⟨[1]⟩ ⟨[2]⟩
    rfl rfl rfl rfl rfl (by decide)

/-- Claim C9 (confirmed): `DELETE /hls` recomputes the playback token
from `(client, path, start, duration)` and targets exactly the
playback directory `./mediamtx_hls/<token>`; a missing or unparsable
`path`/`start`/`duration` is a 400 with the filesystem untouched, an
absent directory is a 404 with the filesystem untouched, and otherwise
the directory is removed and 200 reported. -/
theorem deleteHLSDir_spec (ip p ss ds : String) (de ro : Bool) (st : GoTime) (d : Int)
    (hp : p ≠ "") (hs : ss ≠ "") (hd : ds ≠ "")
    (hps : parseRFC3339 ss = some st) (hpd : parseDuration ds = .ok d) :
    deleteHLSDir ip "" ss ds de ro = ⟨.badRequest, none⟩
    ∧ deleteHLSDir ip p "" ds de ro = ⟨.badRequest, none⟩
    ∧ deleteHLSDir ip p ss "" de ro = ⟨.badRequest, none⟩
    ∧ deleteHLSDir ip p "0-00:badstart" ds de ro = ⟨.badRequest, none⟩
    ∧ deleteHLSDir ip p ss "watermelon" de ro = ⟨.badRequest, none⟩
    ∧ (de = false → deleteHLSDir ip p ss ds de ro = ⟨.notFound, none⟩)
    ∧ (de = true → ro = true →
        deleteHLSDir ip p ss ds de ro
          = ⟨.okDeleted, some (handleHLSDirFor ip p st d)⟩) := by
  refine ⟨?_, ?_, ?_, ?_, ?_, ?_, ?_⟩
  · simp [deleteHLSDir]
  · simp [deleteHLSDir]
  · simp [deleteHLSDir]
  · rw [deleteHLSDir, if_neg (by simp [hp, hd])]
    have : parseRFC3339 "0-00:badstart" = none := by decide
    rw [this]
  · rw [deleteHLSDir, if_neg (by simp [hp, hs]), hps]
    have : parseDuration "watermelon" = .error "invalid duration" := by rfl
    rw [this]
  · intro hde
    rw [deleteHLSDir, if_neg (by simp [hp, hs, hd]), hps, hpd, hde]
    simp
  · intro hde hro
    rw [deleteHLSDir, if_neg (by simp [hp, hs, hd]), hps, hpd, hde, hro]
    simp [handleHLSDirFor]

theorem deleteHLSDir_spec_witness :
    deleteHLSDir "1.2.3.4" "" "2024-01-01T00:00:00Z" "60" true true
        = ⟨.badRequest, none⟩
    ∧ deleteHLSDir "1.2.3.4" "mycam" "" "60" true true = ⟨.badRequest, none⟩
    ∧ deleteHLSDir "1.2.3.4" "mycam" "2024-01-01T00:00:00Z" "" true true
        = ⟨.badRequest, none⟩
    ∧ deleteHLSDir "1.2.3.4" "mycam" "0-00:badstart" "60" true true
        = ⟨.badRequest, none⟩
    ∧ deleteHLSDir "1.2.3.4" "mycam" "2024-01-01T00:00:00Z" "watermelon" true true
        = ⟨.badRequest, none⟩
    ∧ (true = false → deleteHLSDir "1.2.3.4" "mycam" "2024-01-01T00:00:00Z" "60"
        true true = ⟨.notFound, none⟩)
    ∧ (true = true → true = true →
        deleteHLSDir "1.2.3.4" "mycam" "2024-01-01T00:00:00Z" "60" true true
          = ⟨.okDeleted, some (handleHLSDirFor "1.2.3.4" "mycam" c9Start
              60000000000)⟩) :=
  deleteHLSDir_spec "1.2.3.4" "mycam" "2024-01-01T00:00:00Z" "60" true true
    c9Start 60000000000 (by decide) (by decide) (by decide) (by decide) (by rfl)

theorem cleanupDirectories_deleteAll (root : String) (now : Int) :
    ∀ entries : List FsEntry, (∀ e ∈ entries, e.statOk = true) →
      cleanupDirectories root entries now true
        = (entries.filter (fun e => e.isDir)).map (fun e => goJoin [root, e.name]) := by
  intro entries
  induction entries with
  | nil => intro _; rfl
  | cons e rest ih =>
    intro h
    have he := h e (List.mem_cons_self e rest)
    have ihr := ih (fun x hx => h x (List.mem_cons_of_mem e hx))
    by_cases hd : e.isDir = true
    · simp [cleanupDirectories, hd, he, ihr, List.filter_cons]
    · rw [Bool.not_eq_true] at hd
      simp [cleanupDirectories, hd, ihr, List.filter_cons]

theorem cleanupDirectories_hourly (root : String) (now : Int) :
    ∀ entries : List FsEntry, (∀ e ∈ entries, e.statOk = true) →
      cleanupDirectories root entries now false
        = (entries.filter (fun e => e.isDir && decide (now - e.modTimeNs > hourNs))).map
            (fun e => goJoin [root, e.name]) := by
  intro entries
  induction entries with
  | nil => intro _; rfl
  | cons e rest ih =>
    intro h
    have he := h e (List.mem_cons_self e rest)
    have ihr := ih (fun x hx => h x (List.mem_cons_of_mem e hx))
    by_cases hd : e.isDir = true
    · by_cases hold : now - e.modTimeNs > hourNs
      · simp [cleanupDirectories, hd, he, hold, ihr, List.filter_cons]
      · simp [cleanupDirectories, hd, he, hold, ihr, List.filter_cons]
    · rw [Bool.not_eq_true] at hd
      simp [cleanupDirectories, hd, ihr, List.filter_cons]

/-- Claim C10 (confirmed): the startup sweep (`deleteAll = true`)
removes every subdirectory of `./mediamtx_hls` regardless of age, so
no cached artifact survives a restart; each hourly sweep removes
exactly the subdirectories whose modification time is more than one
hour in the past, leaving younger directories and non-directory
entries untouched.  (Entries whose stat succeeds; a failed stat only
skips that entry with a warning.) -/
theorem cleanup_sweeps (entries : List FsEntry) (now : Int)
    (hstat : ∀ e ∈ entries, e.statOk = true) :
    initialCleanupPass entries now
      = (entries.filter (fun e => e.isDir)).map (fun e => goJoin [hlsRoot, e.name])
    ∧ periodicCleanupPass entries now
      = (entries.filter (fun e => e.isDir && decide (now - e.modTimeNs > hourNs))).map
          (fun e => goJoin [hlsRoot, e.name]) :=
  ⟨cleanupDirectories_deleteAll hlsRoot now entries hstat,
   cleanupDirectories_hourly hlsRoot now entries hstat⟩

theorem cleanup_sweeps_witness :
    initialCleanupPass c10Entries 10000000000000
      = (c10Entries.filter (fun e => e.isDir)).map (fun e => goJoin [hlsRoot, e.name])
    ∧ periodicCleanupPass c10Entries 10000000000000
      = (c10Entries.filter (fun e =>
          e.isDir && decide (10000000000000 - e.modTimeNs > hourNs))).map
          (fun e => goJoin [hlsRoot, e.name]) :=
  cleanup_sweeps c10Entries 10000000000000 (by decide)
